import Mathlib

/-!
Verification development for the Cloudflare origin-certificate manager
(`cert_manager.py`).  The Python program is shallowly embedded: the
filesystem is a map from path strings to contents, subprocess and HTTP
outcomes are supplied by explicit environments, and a Python function
that can raise an uncaught exception is modelled with an outcome type
carrying a `raised` constructor.
-/

namespace CertManager

/-- Contents of the target filesystem: path string to file content. -/
def FileMap : Type := String → Option String

/-- Writing a file replaces the content stored at exactly that path
(`open(file_path, "w")` followed by `f.write(content)`). -/
def fsWrite (m : FileMap) (p c : String) : FileMap :=
  fun q => if q = p then some c else m q

/-- Filesystem state: the target files plus the set of temporary files
currently existing (created by `tempfile.NamedTemporaryFile(delete=False)`
and removed by `os.unlink`). -/
structure FS where
  files : FileMap
  temps : List String

/-- The empty filesystem. -/
def emptyFS : FS := ⟨fun _ => none, []⟩

/-- Outcome of a primary `open(...,"w")`/`os.makedirs` attempt:
success, a `PermissionError` (the only exception the code catches), or
any other `OSError` (disk full, invalid path, ...), which the code does
not catch. -/
inductive PrimaryWriteResult
  | ok
  | permissionError
  | otherError
deriving DecidableEq, Repr

/-- Environment for `_write_file` and `save_to_cert_dir`: the outcome of
the primary write per path, whether `sudo cp` to a path succeeds, whether
a directory already exists, the outcome of direct `os.makedirs`, and
whether `sudo mkdir -p` succeeds. -/
structure WriteEnv where
  primary : String → PrimaryWriteResult
  sudoCp : String → Bool
  dirExists : String → Bool
  mkdirPrimary : String → PrimaryWriteResult
  sudoMkdir : String → Bool

/-- How a modelled Python call ends: a normal `return True`, a normal
`return False`, or an uncaught exception propagating to the caller. -/
inductive WriteOutcome
  | ok
  | failed
  | raised
deriving DecidableEq, Repr

/-- Result of `CloudflareAPI._write_file`: the filesystem afterwards, how
the call ended, and how many times the sudo fallback was attempted. -/
structure WriteResult where
  fs : FS
  outcome : WriteOutcome
  fallbackAttempts : Nat

/-- Embedding of `CloudflareAPI._write_file(file_path, content)`.
`t` is the name `tempfile.NamedTemporaryFile` hands out for this call.
Primary success writes directly; a `PermissionError` triggers the sudo
fallback: the content goes to temp file `t`, `sudo cp t file_path` runs,
and only on copy success does `os.unlink(t)` run before `return True`;
on copy failure the code returns `False` without unlinking.  Any other
primary error propagates (is not caught). -/
def writeFile (env : WriteEnv) (s : FS) (p c t : String) : WriteResult :=
  match env.primary p with
  | .ok => ⟨⟨fsWrite s.files p c, s.temps⟩, .ok, 0⟩
  | .otherError => ⟨s, .raised, 0⟩
  | .permissionError =>
    if env.sudoCp p then
      ⟨⟨fsWrite s.files p c, (t :: s.temps).erase t⟩, .ok, 1⟩
    else
      ⟨⟨s.files, t :: s.temps⟩, .failed, 1⟩

/-- The outcome of `_write_file` depends only on the environment and the
path, never on the filesystem contents. -/
def writeOutcomeOf (env : WriteEnv) (p : String) : WriteOutcome :=
  match env.primary p with
  | .ok => .ok
  | .otherError => .raised
  | .permissionError => if env.sudoCp p then .ok else .failed

theorem writeFile_outcome (env : WriteEnv) (s : FS) (p c t : String) :
    (writeFile env s p c t).outcome = writeOutcomeOf env p := by
  unfold writeFile writeOutcomeOf
  cases env.primary p
  · rfl
  · by_cases h : env.sudoCp p <;> simp [h]
  · rfl

theorem writeFile_erase (t : String) (l : List String) :
    (t :: l).erase t = l := by
  simp [List.erase_cons]

/-! ### CA client (`CloudflareAPI.create_origin_certificate`) -/

/-- The fields of the CA's `result` object that the program reads. -/
structure CertResult where
  id : String
  certificate : String
  expires_at : String
deriving DecidableEq, Repr

/-- Outcome of `generate_csr`: either the CSR and private key strings, or
an uncaught `subprocess.CalledProcessError` from one of the two
`check=True` openssl invocations (nothing in `generate_csr` or its
callers catches it). -/
inductive CsrOutcome
  | ok (csr : String) (private_key : String)
  | raised
deriving DecidableEq, Repr

/-- Outcome of `requests.post`: a network-level exception, or a response
with an HTTP status code and a parsed JSON body `{success, errors, result}`. -/
inductive HttpOutcome
  | transportError
  | response (status : Nat) (success : Bool) (errors : List String) (result : CertResult)
deriving DecidableEq, Repr

/-- How a Python function that may raise terminates: uncaught exception,
`return None`, or `return <value>`. -/
inductive PyOutcome (α : Type)
  | raised
  | retNone
  | retSome (a : α)
deriving DecidableEq, Repr

/-- Embedding of `CloudflareAPI.create_origin_certificate`.  The request
body (hostnames, validity, type, CSR) is passed to the HTTP layer; its
outcome is the environment `http`.  A CSR-generation failure or a
transport failure propagates as an uncaught exception.  A non-200 status
or a `success: false` body prints a message and returns `None`; on
success the locally generated private key is attached to the result. -/
def create_origin_certificate (_hostnames : List String) (_validity_days : Nat)
    (_request_type : String) (csrO : CsrOutcome) (http : HttpOutcome) :
    PyOutcome (CertResult × String) :=
  match csrO with
  | .raised => .raised
  | .ok _ private_key =>
    match http with
    | .transportError => .raised
    | .response status success _ result =>
      if status ≠ 200 then .retNone
      else if success = false then .retNone
      else .retSome (result, private_key)

/-! ### Fingerprint extractor (`CloudflareAPI.get_certificate_fingerprint`) -/

/-- Whitespace characters stripped by Python's `str.strip()`. -/
def pySpace (c : Char) : Bool :=
  c = ' ' || c = '\t' || c = '\n' || c = '\r' || c = '\x0b' || c = '\x0c'

/-- Python `str.strip()` on a character list. -/
def pyStrip (l : List Char) : List Char :=
  ((l.dropWhile pySpace).reverse.dropWhile pySpace).reverse

/-- Python `str.split(sep)` for a one-character separator: the list of
groups between occurrences of `sep` (always non-empty). -/
def splitOnChar (sep : Char) : List Char → List (List Char)
  | [] => [[]]
  | c :: rest =>
    if c = sep then [] :: splitOnChar sep rest
    else
      match splitOnChar sep rest with
      | [] => [[c]]
      | g :: gs => (c :: g) :: gs

/-- The character class kept by `re.sub(r'[^A-F0-9:]', '', ...)`. -/
def isHexColon (c : Char) : Bool :=
  ('0' ≤ c && c ≤ '9') || ('A' ≤ c && c ≤ 'F') || c = ':'

/-- Normalization applied by `get_certificate_fingerprint` to the stdout
of `openssl x509 -fingerprint -sha256 -noout`: strip, take the part after
the last `=` when one is present and strip it, upper-case, then drop every
character outside `[A-F0-9:]`. -/
def normFingerprintChars (l : List Char) : List Char :=
  let line := pyStrip l
  let fp := if '=' ∈ line then pyStrip ((splitOnChar '=' line).getLastD []) else pyStrip line
  (fp.map Char.toUpper).filter isHexColon

/-- Outcome of the openssl fingerprint subprocess: its stdout text, or a
`CalledProcessError` (caught by the code, which then returns `None`). -/
inductive OpensslOutcome
  | ok (stdout : String)
  | calledProcessError
deriving DecidableEq, Repr

/-- Embedding of `CloudflareAPI.get_certificate_fingerprint`: on
subprocess success the normalized stdout, on `CalledProcessError` the
value `None` (the temporary certificate file is unlinked in `finally`
either way, so it leaves no filesystem trace we need to track). -/
def get_certificate_fingerprint (o : OpensslOutcome) : Option String :=
  match o with
  | .ok out => some ⟨normFingerprintChars out.data⟩
  | .calledProcessError => none

/-- Upper-case hexadecimal digit for a value below 16. -/
def hexDigitChar (n : Nat) : Char :=
  if n < 10 then Char.ofNat (48 + n) else Char.ofNat (55 + n)

/-- Two-digit upper-case hex rendering of one byte. -/
def byteHexPair (b : Nat) : List Char :=
  [hexDigitChar (b / 16 % 16), hexDigitChar (b % 16)]

/-- Join character groups with a single colon between them. -/
def joinColon : List (List Char) → List Char
  | [] => []
  | [g] => g
  | g :: g' :: gs => g ++ ':' :: joinColon (g' :: gs)

/-- Colon-separated upper-case hex rendering of a byte sequence. -/
def hexColonChars (digest : List Nat) : List Char :=
  joinColon (digest.map byteHexPair)

/-- Modelled from the spec: the external `openssl x509 -fingerprint
-sha256 -noout` tool (absent from `src/`) deterministically prints
`SHA256 Fingerprint=` followed by the SHA-256 digest of the certificate's
DER bytes rendered as colon-separated upper-case hex pairs and a trailing
newline.  `digest` stands for that digest, a pure function of the DER
bytes. -/
def opensslFingerprintStdout (digest : List Nat) : String :=
  ⟨"SHA256 Fingerprint=".data ++ hexColonChars digest ++ ['\n']⟩

/-- Decidable rendering of the regular expression
`^[0-9A-F]{2}(:[0-9A-F]{2})*$`: splitting on `:` yields groups that are
all exactly two upper-case hex digits (and the empty string fails, since
its single group has length 0). -/
def isUpperHex (c : Char) : Bool :=
  ('0' ≤ c && c ≤ '9') || ('A' ≤ c && c ≤ 'F')

/-- Checker for the fingerprint shape `^[0-9A-F]{2}(:[0-9A-F]{2})*$`. -/
def fingerprintPattern (s : String) : Bool :=
  (splitOnChar ':' s.data).all fun g => g.length = 2 && g.all isUpperHex

/-! ### CSR generator (`CloudflareAPI.generate_csr`) -/

/-- The argv of the private-key generation subprocess
`openssl genrsa -out <key_path> 2048` run by `generate_csr`. -/
def genrsaArgs (key_path : String) : List String :=
  ["openssl", "genrsa", "-out", key_path, "2048"]

/-- The argv of the CSR generation subprocess run by `generate_csr`. -/
def opensslReqArgs (key_path csr_path config_path : String) : List String :=
  ["openssl", "req", "-new", "-key", key_path, "-out", csr_path, "-config", config_path]

/-- The `[alt_names]` lines written by the `for i, hostname in
enumerate(hostnames)` loop: `DNS.<i+1> = <hostname>`, starting at index
`i`. -/
def altNameLines : List String → Nat → List String
  | [], _ => []
  | h :: t, i => ("DNS." ++ toString (i + 1) ++ " = " ++ h) :: altNameLines t (i + 1)

/-- The lines of the `csr.conf` file written by `generate_csr` before the
`[alt_names]` entries; `cn` is `hostnames[0]`. -/
def csrHeaderLines (cn : String) : List String :=
  ["[req]",
   "distinguished_name = req_distinguished_name",
   "req_extensions = v3_req",
   "prompt = no",
   "[req_distinguished_name]",
   "CN = " ++ cn,
   "[v3_req]",
   "keyUsage = keyEncipherment, dataEncipherment",
   "extendedKeyUsage = serverAuth",
   "subjectAltName = @alt_names",
   "[alt_names]"]

/-- The complete `csr.conf` contents written by `generate_csr` for a
hostname list (Python indexes `hostnames[0]`, which presupposes a
non-empty list; the claims about this function carry that hypothesis). -/
def csrConfLines (hostnames : List String) : List String :=
  csrHeaderLines (hostnames.headD "") ++ altNameLines hostnames 0

/-! ### Persistence (`CloudflareAPI.save_to_cert_dir`) -/

/-- `os.path.join(cert_dir_base, domain, hostname)`. -/
def hostDir (cert_dir_base domain hostname : String) : String :=
  cert_dir_base ++ "/" ++ domain ++ "/" ++ hostname

/-- `os.path.join(host_specific_dir, f"{file_prefix}.{ext}")` with the
prefix `f"{domain}.{hostname}"` (the trailing extension, dot included, is
`ext`). -/
def artifactPath (cert_dir_base domain hostname ext : String) : String :=
  hostDir cert_dir_base domain hostname ++ "/" ++ (domain ++ "." ++ hostname ++ ext)

/-- The directory-creation preamble of `save_to_cert_dir`: skipped when
the directory exists; `os.makedirs` success proceeds; a `PermissionError`
falls back to `sudo mkdir -p` (proceed on exit 0, `return False`
otherwise); any other `os.makedirs` error is uncaught. -/
def mkdirStep (env : WriteEnv) (dir : String) : Option Bool :=
  if env.dirExists dir then some true
  else
    match env.mkdirPrimary dir with
    | .ok => some true
    | .permissionError => some (env.sudoMkdir dir)
    | .otherError => none

/-- Embedding of `CloudflareAPI.save_to_cert_dir(domain, hostname,
cert_content, key_content, fingerprint, cert_dir_base)`.  After the
directory step it writes `.crt`, then `.key`, then `.fingerprint` via
`_write_file`, returning `False` as soon as one write returns `False`
(`raised` marks an uncaught exception from `_write_file` or
`os.makedirs`).  `t1 t2 t3` are the temp-file names available to the
three `_write_file` calls. -/
def save_to_cert_dir (env : WriteEnv) (s : FS) (t1 t2 t3 : String)
    (domain hostname cert_content key_content fingerprint cert_dir_base : String) :
    FS × WriteOutcome :=
  let dir := hostDir cert_dir_base domain hostname
  match mkdirStep env dir with
  | none => (s, .raised)
  | some false => (s, .failed)
  | some true =>
    let r1 := writeFile env s (artifactPath cert_dir_base domain hostname ".crt") cert_content t1
    match r1.outcome with
    | .raised => (r1.fs, .raised)
    | .failed => (r1.fs, .failed)
    | .ok =>
      let r2 := writeFile env r1.fs (artifactPath cert_dir_base domain hostname ".key") key_content t2
      match r2.outcome with
      | .raised => (r2.fs, .raised)
      | .failed => (r2.fs, .failed)
      | .ok =>
        let r3 := writeFile env r2.fs
          (artifactPath cert_dir_base domain hostname ".fingerprint") fingerprint t3
        match r3.outcome with
        | .raised => (r3.fs, .raised)
        | .failed => (r3.fs, .failed)
        | .ok => (r3.fs, .ok)

/-! ### Batch orchestrator (`main`) -/

/-- Python truthiness of an optional string: `None` and `""` are falsy
(`if not origin_ca_key`). -/
def truthyOpt : Option String → Bool
  | none => false
  | some s => decide (s ≠ "")

/-- The per-domain configuration fields `main` reads after merging (the
CLI overrides are absent in the runs we model, so each field comes from
the domain's merged config). -/
structure UnitConfig where
  origin_ca_key : Option String
  hostnames : List String
  cert_type : String
  validity_days : Nat
  cert_dir_base : String

/-- One iteration unit of `main`'s `for domain in domains` loop: the
domain name and the merged config `get_domain_config` returns for it
(`none` when the lookup fails, hitting the `warning: 配置不存在`
branch). -/
structure BatchUnit where
  domain : String
  config : Option UnitConfig

/-- Environment of one unit's pipeline: the CSR subprocess outcome, the
CA HTTP outcome, the fingerprint subprocess outcome, the write
environment, and the temp-file name the write fallback uses. -/
structure UnitEnv where
  csr : CsrOutcome
  http : HttpOutcome
  fpOut : OpensslOutcome
  wenv : WriteEnv
  tmp : String

/-- The `for hostname in hostnames` save loop of `main` (lines 347-355):
each hostname gets a `save_to_cert_dir` call whose boolean result is
discarded; an uncaught exception from a call propagates (second
component `true`). -/
def saveAll (env : WriteEnv) (tmp : String) (s : FS) (domain : String)
    (hostnames : List String) (cert key fp base : String) : FS × Bool :=
  match hostnames with
  | [] => (s, false)
  | h :: t =>
    let r := save_to_cert_dir env s tmp tmp tmp domain h cert key fp base
    match r.2 with
    | .raised => (r.1, true)
    | _ => saveAll env tmp r.1 domain t cert key fp base

/-- How one loop iteration of `main` ends: an uncaught exception aborting
the whole run, or normal completion recording `success` (did
`success_count` get incremented?) and `caCalled` (did the iteration reach
`create_origin_certificate`?). -/
inductive UnitStep
  | raised (fs : FS)
  | done (success : Bool) (caCalled : Bool) (fs : FS)

/-- Embedding of one iteration of `main`'s domain loop: missing config,
falsy `origin_ca_key`, or empty `hostnames` record a failure and
`continue` without touching the CA; otherwise `create_origin_certificate`
runs, and on a returned certificate the fingerprint is taken and — when
the fingerprint is truthy (`private_key` is always present, having been
attached on success) — every hostname is saved, after which
`success_count` is incremented regardless of fingerprint or save
results. -/
def processUnit (e : UnitEnv) (s : FS) (u : BatchUnit) : UnitStep :=
  match u.config with
  | none => .done false false s
  | some cfg =>
    if truthyOpt cfg.origin_ca_key = false then .done false false s
    else if cfg.hostnames = [] then .done false false s
    else
      match create_origin_certificate cfg.hostnames cfg.validity_days cfg.cert_type
          e.csr e.http with
      | .raised => .raised s
      | .retNone => .done false true s
      | .retSome (cert, private_key) =>
        match get_certificate_fingerprint e.fpOut with
        | none => .done true true s
        | some fp =>
          if fp = "" then .done true true s
          else
            match saveAll e.wenv e.tmp s u.domain cfg.hostnames cert.certificate
                private_key fp cfg.cert_dir_base with
            | (s', true) => .raised s'
            | (s', false) => .done true true s'

/-- State of a whole `main` run over a unit list: the recorded per-unit
success flags in order (each `true` adds to `success_count`, each `false`
to `fail_count`), how many iterations reached the CA call, the final
filesystem, and whether the loop completed without an uncaught
exception. -/
structure RunState where
  outcomes : List Bool
  caCalls : Nat
  fs : FS
  completed : Bool

/-- Embedding of `main`'s domain loop: process units in order, stopping
the whole run at the first uncaught exception. -/
def runUnits (units : List (BatchUnit × UnitEnv)) (s : FS) : RunState :=
  match units with
  | [] => ⟨[], 0, s, true⟩
  | (u, e) :: rest =>
    match processUnit e s u with
    | .raised s' => ⟨[], 0, s', false⟩
    | .done success ca s' =>
      let r := runUnits rest s'
      ⟨success :: r.outcomes, (if ca then 1 else 0) + r.caCalls, r.fs, r.completed⟩

/-- The final `success_count` printed by `main` for a completed run. -/
def successCount (r : RunState) : Nat := r.outcomes.count true

/-- The final `fail_count` printed by `main` for a completed run. -/
def failCount (r : RunState) : Nat := r.outcomes.count false

/-! ### Per-unit decision functions

The success flag, CA-call flag and raise/no-raise decision of one loop
iteration depend only on the unit and its environment, never on the
filesystem contents; the following functions compute them and are proved
to agree with `processUnit`. -/

/-- The outcome `save_to_cert_dir` returns for one hostname, as a
function of the environment and path parts alone. -/
def saveOutcomeOf (env : WriteEnv) (domain hostname cert_dir_base : String) :
    WriteOutcome :=
  match mkdirStep env (hostDir cert_dir_base domain hostname) with
  | none => .raised
  | some false => .failed
  | some true =>
    match writeOutcomeOf env (artifactPath cert_dir_base domain hostname ".crt") with
    | .raised => .raised
    | .failed => .failed
    | .ok =>
      match writeOutcomeOf env (artifactPath cert_dir_base domain hostname ".key") with
      | .raised => .raised
      | .failed => .failed
      | .ok => writeOutcomeOf env (artifactPath cert_dir_base domain hostname ".fingerprint")

/-- Whether the hostname save loop raises an uncaught exception. -/
def saveAllRaises (env : WriteEnv) (domain : String) (hostnames : List String)
    (cert_dir_base : String) : Bool :=
  match hostnames with
  | [] => false
  | h :: t =>
    match saveOutcomeOf env domain h cert_dir_base with
    | .raised => true
    | _ => saveAllRaises env domain t cert_dir_base

/-- The decision one loop iteration of `main` makes, independent of the
filesystem: `none` when the iteration raises an uncaught exception,
`some (success, caCalled)` otherwise. -/
def unitDecision (e : UnitEnv) (u : BatchUnit) : Option (Bool × Bool) :=
  match u.config with
  | none => some (false, false)
  | some cfg =>
    if truthyOpt cfg.origin_ca_key = false then some (false, false)
    else if cfg.hostnames = [] then some (false, false)
    else
      match create_origin_certificate cfg.hostnames cfg.validity_days cfg.cert_type
          e.csr e.http with
      | .raised => none
      | .retNone => some (false, true)
      | .retSome _ =>
        match get_certificate_fingerprint e.fpOut with
        | none => some (true, true)
        | some fp =>
          if fp = "" then some (true, true)
          else if saveAllRaises e.wenv u.domain cfg.hostnames cfg.cert_dir_base
            then none else some (true, true)

/-- Success flag a unit would record (meaningful when it does not raise). -/
def decidedSuccess (p : BatchUnit × UnitEnv) : Bool :=
  ((unitDecision p.2 p.1).getD (false, false)).1

/-- Whether a unit's iteration reaches the CA call. -/
def decidedCa (p : BatchUnit × UnitEnv) : Bool :=
  ((unitDecision p.2 p.1).getD (false, false)).2

/-- Packaging of a decision and a final filesystem as a `UnitStep`. -/
def stepOfDecision (d : Option (Bool × Bool)) (s' : FS) : UnitStep :=
  match d with
  | none => .raised s'
  | some (success, ca) => .done success ca s'

/-- Number of units of a run that reach the CA call. -/
def caOpportunities (units : List (BatchUnit × UnitEnv)) : Nat :=
  (units.map (fun p => if decidedCa p then 1 else 0)).sum

/-! ### Concrete environments used by witnesses and counterexamples -/

/-- Every filesystem operation succeeds directly. -/
def envAllOk : WriteEnv :=
  ⟨fun _ => .ok, fun _ => true, fun _ => true, fun _ => .ok, fun _ => true⟩

/-- Every primary write hits `PermissionError`; `sudo cp` succeeds. -/
def envPermCpOk : WriteEnv :=
  ⟨fun _ => .permissionError, fun _ => true, fun _ => true, fun _ => .ok, fun _ => true⟩

/-- Every primary write hits `PermissionError`; `sudo cp` fails. -/
def envPermCpFail : WriteEnv :=
  ⟨fun _ => .permissionError, fun _ => false, fun _ => true, fun _ => .ok, fun _ => true⟩

/-- Every primary write fails with a non-permission `OSError`. -/
def envOtherErr : WriteEnv :=
  ⟨fun _ => .otherError, fun _ => true, fun _ => true, fun _ => .ok, fun _ => true⟩

/-- A fixed CA `result` payload for concrete runs. -/
def exCertResult : CertResult := ⟨"cert-id-1", "PEM-CERT", "2026-01-01T00:00:00Z"⟩

/-- A well-formed merged domain config. -/
def goodConfig : UnitConfig :=
  ⟨some "ca-key", ["a.example.com"], "origin-rsa", 90, "/etc/cert"⟩

/-- A well-formed batch unit. -/
def goodUnit : BatchUnit := ⟨"example.com", some goodConfig⟩

/-- A merged config whose `origin_ca_key` is absent (the malformed unit
of the isolation scenario). -/
def noKeyConfig : UnitConfig := ⟨none, ["x.example.com"], "origin-rsa", 90, "/etc/cert"⟩

/-- A batch unit missing its credential. -/
def malUnit : BatchUnit := ⟨"bad.example.com", some noKeyConfig⟩

/-- Unit environment: every stage succeeds. -/
def envCaOkFpOk : UnitEnv :=
  ⟨.ok "CSR" "KEY", .response 200 true [] exCertResult, .ok "AB:CD", envAllOk, "/tmp/t"⟩

/-- Unit environment: issuance succeeds but the fingerprint subprocess
fails with `CalledProcessError`. -/
def envCaOkFpFail : UnitEnv :=
  ⟨.ok "CSR" "KEY", .response 200 true [] exCertResult, .calledProcessError, envAllOk, "/tmp/t"⟩

/-- Unit environment: the CA answers 200 but with `success: false`. -/
def envCaReject : UnitEnv :=
  ⟨.ok "CSR" "KEY", .response 200 false ["rejected"] exCertResult, .ok "AB:CD", envAllOk,
   "/tmp/t"⟩

/-- Unit environment: the CSR-generation subprocess raises
`CalledProcessError` (uncaught). -/
def envCsrRaise : UnitEnv :=
  ⟨.raised, .response 200 true [] exCertResult, .ok "AB:CD", envAllOk, "/tmp/t"⟩

/-- Write environment in which exactly the `.key` artifact of
`a.example.com` hits a `PermissionError` with a failing `sudo cp`. -/
def envKeyWriteFails : WriteEnv :=
  ⟨fun p => if p = artifactPath "/etc/cert" "example.com" "a.example.com" ".key"
      then .permissionError else .ok,
   fun _ => false, fun _ => true, fun _ => .ok, fun _ => true⟩

/-! ### Helper lemmas about the fingerprint normalization -/

theorem dropWhile_cons_false {p : Char → Bool} {x : Char} {l : List Char}
    (h : p x = false) : (x :: l).dropWhile p = x :: l := by
  simp [List.dropWhile, h]

theorem dropWhile_eq_self_of {p : Char → Bool} {l : List Char}
    (h : ∀ c ∈ l, p c = false) : l.dropWhile p = l := by
  cases l with
  | nil => rfl
  | cons x xs => exact dropWhile_cons_false (h x (by simp))

theorem pyStrip_eq_self {l : List Char} (h : ∀ c ∈ l, pySpace c = false) :
    pyStrip l = l := by
  unfold pyStrip
  rw [dropWhile_eq_self_of h, dropWhile_eq_self_of, List.reverse_reverse]
  intro c hc
  exact h c (by simpa using hc)

theorem splitOnChar_ne_nil (sep : Char) (l : List Char) : splitOnChar sep l ≠ [] := by
  induction l with
  | nil => simp [splitOnChar]
  | cons c rest ih =>
    unfold splitOnChar
    by_cases h : c = sep
    · simp [h]
    · simp only [h, if_false]
      cases hr : splitOnChar sep rest with
      | nil => simp
      | cons g gs => simp

theorem splitOnChar_no_sep {sep : Char} {l : List Char} (h : sep ∉ l) :
    splitOnChar sep l = [l] := by
  induction l with
  | nil => rfl
  | cons c rest ih =>
    have hc : ¬ c = sep := fun hcs => h (hcs ▸ List.mem_cons_self c rest)
    have hrest : sep ∉ rest := fun hs => h (List.mem_cons_of_mem c hs)
    unfold splitOnChar
    simp only [hc, if_false, ih hrest]

theorem splitOnChar_append_sep {sep : Char} (a b : List Char) (h : sep ∉ a) :
    splitOnChar sep (a ++ sep :: b) = a :: splitOnChar sep b := by
  induction a with
  | nil => simp [splitOnChar]
  | cons c a' ih =>
    have hc : ¬ c = sep := fun hcs => h (hcs ▸ List.mem_cons_self c a')
    have ha' : sep ∉ a' := fun hs => h (List.mem_cons_of_mem c hs)
    rw [List.cons_append, splitOnChar]
    simp only [hc, if_false, ih ha']

theorem isHexColon_hexDigitChar {n : Nat} (h : n < 16) :
    isHexColon (hexDigitChar n) = true := by
  interval_cases n <;> decide

theorem isUpperHex_hexDigitChar {n : Nat} (h : n < 16) :
    isUpperHex (hexDigitChar n) = true := by
  interval_cases n <;> decide

theorem mem_byteHexPair {c : Char} {b : Nat} (h : c ∈ byteHexPair b) :
    isHexColon c = true ∧ isUpperHex c = true := by
  have h1 : b / 16 % 16 < 16 := Nat.mod_lt _ (by omega)
  have h2 : b % 16 < 16 := Nat.mod_lt _ (by omega)
  simp only [byteHexPair, List.mem_cons, List.mem_singleton] at h
  rcases h with h | h | h
  · exact h ▸ ⟨isHexColon_hexDigitChar h1, isUpperHex_hexDigitChar h1⟩
  · exact h ▸ ⟨isHexColon_hexDigitChar h2, isUpperHex_hexDigitChar h2⟩
  · cases h

theorem mem_joinColon {c : Char} : ∀ {gs : List (List Char)}, c ∈ joinColon gs →
    c = ':' ∨ ∃ g ∈ gs, c ∈ g
  | [], h => by cases h
  | [g], h => Or.inr ⟨g, by simp, by simpa [joinColon] using h⟩
  | g :: g' :: gs, h => by
    simp only [joinColon, List.mem_append, List.mem_cons] at h
    rcases h with h | h | h
    · exact Or.inr ⟨g, by simp, h⟩
    · exact Or.inl h
    · rcases mem_joinColon h with h' | ⟨g'', hg'', hc⟩
      · exact Or.inl h'
      · exact Or.inr ⟨g'', by simp [List.mem_cons] at hg'' ⊢; tauto, hc⟩

theorem mem_hexColonChars {c : Char} {digest : List Nat}
    (h : c ∈ hexColonChars digest) : isHexColon c = true := by
  rcases mem_joinColon h with h' | ⟨g, hg, hc⟩
  · exact h' ▸ rfl
  · rcases List.mem_map.1 hg with ⟨b, _, hb⟩
    exact (mem_byteHexPair (hb ▸ hc)).1

theorem isHexColon_not_space {c : Char} (hx : isHexColon c = true) :
    pySpace c = false := by
  have h48 : 48 ≤ c.toNat := by
    simp only [isHexColon, Bool.or_eq_true, Bool.and_eq_true, decide_eq_true_eq] at hx
    rcases hx with (⟨h1, _⟩ | ⟨h1, _⟩) | h1
    · exact h1
    · have h65 : (65 : Nat) ≤ c.toNat := h1
      omega
    · subst h1; decide
  simp only [pySpace, Bool.or_eq_false_iff, decide_eq_false_iff_not]
  refine ⟨⟨⟨⟨⟨?_, ?_⟩, ?_⟩, ?_⟩, ?_⟩, ?_⟩ <;> intro hw <;> subst hw <;>
    revert h48 <;> decide

theorem toUpper_eq_self_of_isHexColon {c : Char} (h : isHexColon c = true) :
    c.toUpper = c := by
  have hlt : c.toNat < 97 := by
    simp only [isHexColon, Bool.or_eq_true, Bool.and_eq_true, decide_eq_true_eq] at h
    rcases h with (⟨_, h2⟩ | ⟨_, h2⟩) | h2
    · have h57 : c.toNat ≤ 57 := h2
      omega
    · have h70 : c.toNat ≤ 70 := h2
      omega
    · subst h2; decide
  unfold Char.toUpper
  rw [if_neg]
  omega

theorem hexColonChars_ne_nil {digest : List Nat} (h : digest ≠ []) :
    hexColonChars digest ≠ [] := by
  obtain ⟨b, t, rfl⟩ := List.exists_cons_of_ne_nil h
  cases t with
  | nil => simp [hexColonChars, joinColon, byteHexPair]
  | cons b' t' => simp [hexColonChars, joinColon, byteHexPair]

theorem pyStrip_header_hex (c0 : Char) (t0 hx : List Char)
    (hc0 : pySpace c0 = false) (hx_ne : hx ≠ [])
    (hxns : ∀ c ∈ hx, pySpace c = false) :
    pyStrip ((c0 :: t0) ++ hx ++ ['\n']) = (c0 :: t0) ++ hx := by
  have e1 : ((c0 :: t0) ++ hx ++ ['\n']).dropWhile pySpace = (c0 :: t0) ++ hx ++ ['\n'] := by
    rw [show (c0 :: t0) ++ hx ++ ['\n'] = c0 :: (t0 ++ (hx ++ ['\n'])) from by simp]
    exact dropWhile_cons_false hc0
  have e2 : ((c0 :: t0) ++ hx ++ ['\n']).reverse = '\n' :: ((c0 :: t0) ++ hx).reverse := by
    rw [show (c0 :: t0) ++ hx ++ ['\n'] = ((c0 :: t0) ++ hx) ++ ['\n'] from by simp,
      List.reverse_append]
    rfl
  have e3 : (('\n' :: ((c0 :: t0) ++ hx).reverse) : List Char).dropWhile pySpace =
      (((c0 :: t0) ++ hx).reverse).dropWhile pySpace := by
    simp [List.dropWhile, pySpace]
  obtain ⟨y, ys, hy⟩ := List.exists_cons_of_ne_nil
    (show hx.reverse ≠ [] from
      fun hrev => hx_ne (by simpa using congrArg List.reverse hrev))
  have hyns : pySpace y = false :=
    hxns y (List.mem_reverse.1 (hy ▸ List.mem_cons_self y ys))
  have e4 : (((c0 :: t0) ++ hx).reverse).dropWhile pySpace = ((c0 :: t0) ++ hx).reverse := by
    rw [List.reverse_append, hy, List.cons_append, dropWhile_cons_false hyns,
      ← List.cons_append, ← hy, ← List.reverse_append]
  unfold pyStrip
  rw [e1, e2, e3, e4, List.reverse_reverse]

theorem eq_mem_header : ('=' : Char) ∈ "SHA256 Fingerprint=".data := by decide

theorem normFingerprint_openssl (digest : List Nat) (hne : digest ≠ []) :
    normFingerprintChars (opensslFingerprintStdout digest).data = hexColonChars digest := by
  have hx_ne : hexColonChars digest ≠ [] := hexColonChars_ne_nil hne
  have hxhex : ∀ c ∈ hexColonChars digest, isHexColon c = true :=
    fun c hc => mem_hexColonChars hc
  have hxns : ∀ c ∈ hexColonChars digest, pySpace c = false :=
    fun c hc => isHexColon_not_space (hxhex c hc)
  have hdata : (opensslFingerprintStdout digest).data =
      ('S' :: "HA256 Fingerprint=".data) ++ hexColonChars digest ++ ['\n'] := rfl
  unfold normFingerprintChars
  simp only []
  rw [hdata, pyStrip_header_hex 'S' _ _ (by decide) hx_ne hxns]
  have hsplit : ('S' :: "HA256 Fingerprint=".data) ++ hexColonChars digest =
      "SHA256 Fingerprint".data ++ '=' :: hexColonChars digest := rfl
  have hmem : ('=' : Char) ∈ ('S' :: "HA256 Fingerprint=".data) ++ hexColonChars digest := by
    rw [hsplit]
    exact List.mem_append_right _ (List.mem_cons_self _ _)
  rw [if_pos hmem, hsplit,
    splitOnChar_append_sep "SHA256 Fingerprint".data (hexColonChars digest) (by decide),
    splitOnChar_no_sep (fun hmem' => by
      have := hxhex '=' hmem'
      exact absurd this (by decide))]
  have hlast : (("SHA256 Fingerprint".data :: [hexColonChars digest]) :
      List (List Char)).getLastD [] = hexColonChars digest := by
    simp [List.getLastD]
  rw [hlast, pyStrip_eq_self hxns]
  have hup : (hexColonChars digest).map Char.toUpper = hexColonChars digest := by
    rw [List.map_congr_left (fun c hc => toUpper_eq_self_of_isHexColon (hxhex c hc)),
      List.map_id']
  rw [hup]
  exact List.filter_eq_self.2 hxhex

theorem splitOnChar_joinColon (gs : List (List Char)) (hne : gs ≠ [])
    (h : ∀ g ∈ gs, (':' : Char) ∉ g) : splitOnChar ':' (joinColon gs) = gs := by
  induction gs with
  | nil => cases hne rfl
  | cons g gs ih =>
    cases gs with
    | nil => simpa [joinColon] using splitOnChar_no_sep (h g (by simp))
    | cons g' gs' =>
      rw [joinColon, splitOnChar_append_sep g _ (h g (by simp)),
        ih (by simp) (fun g'' hg'' => h g'' (List.mem_cons_of_mem _ hg''))]

theorem fingerprintPattern_hexColon (digest : List Nat) (hne : digest ≠ []) :
    fingerprintPattern ⟨hexColonChars digest⟩ = true := by
  have hdata : (String.mk (hexColonChars digest)).data = hexColonChars digest := rfl
  unfold fingerprintPattern
  rw [hdata]
  unfold hexColonChars
  rw [splitOnChar_joinColon _ (by simpa using hne) (fun g hg hcolon => by
    rcases List.mem_map.1 hg with ⟨b, _, rfl⟩
    exact absurd (mem_byteHexPair hcolon).2 (by decide))]
  rw [List.all_eq_true]
  intro g hg
  rcases List.mem_map.1 hg with ⟨b, _, rfl⟩
  have h1 : b / 16 % 16 < 16 := Nat.mod_lt _ (by omega)
  have h2 : b % 16 < 16 := Nat.mod_lt _ (by omega)
  simp [byteHexPair, isUpperHex_hexDigitChar h1, isUpperHex_hexDigitChar h2]

/-! ### Helper lemmas about the CSR config -/

theorem altNameLines_length (l : List String) (i : Nat) :
    (altNameLines l i).length = l.length := by
  induction l generalizing i with
  | nil => rfl
  | cons a t ih => simp [altNameLines, ih]

theorem altNameLines_get (l : List String) (i j : Nat) (hnm : String)
    (h : l[j]? = some hnm) :
    (altNameLines l i)[j]? = some ("DNS." ++ toString (i + j + 1) ++ " = " ++ hnm) := by
  induction l generalizing i j with
  | nil => cases h
  | cons a t ih =>
    cases j with
    | zero =>
      simp only [List.getElem?_cons_zero, Option.some_inj] at h
      subst h
      simp [altNameLines]
    | succ j' =>
      simp only [List.getElem?_cons_succ] at h
      have := ih (i + 1) j' h
      simpa [altNameLines, Nat.add_assoc, Nat.add_comm, Nat.add_left_comm] using this

/-! ### Helper lemmas about the orchestrator -/

theorem save_outcome_eq (env : WriteEnv) (s : FS)
    (t1 t2 t3 domain hostname c k f base : String) :
    (save_to_cert_dir env s t1 t2 t3 domain hostname c k f base).2 =
      saveOutcomeOf env domain hostname base := by
  cases hmk : mkdirStep env (hostDir base domain hostname) with
  | none => simp [save_to_cert_dir, saveOutcomeOf, hmk]
  | some b =>
    cases b
    · simp [save_to_cert_dir, saveOutcomeOf, hmk]
    · cases h1 : writeOutcomeOf env (artifactPath base domain hostname ".crt") <;>
        cases h2 : writeOutcomeOf env (artifactPath base domain hostname ".key") <;>
          cases h3 : writeOutcomeOf env (artifactPath base domain hostname ".fingerprint") <;>
            simp [save_to_cert_dir, saveOutcomeOf, hmk, writeFile_outcome, h1, h2, h3]

theorem saveAll_snd (env : WriteEnv) (tmp : String) (s : FS) (domain : String)
    (hostnames : List String) (c k f base : String) :
    (saveAll env tmp s domain hostnames c k f base).2 =
      saveAllRaises env domain hostnames base := by
  induction hostnames generalizing s with
  | nil => rfl
  | cons h t ih =>
    unfold saveAll saveAllRaises
    simp only []
    rw [save_outcome_eq]
    cases hso : saveOutcomeOf env domain h base <;> simp [hso, ih]

theorem processUnit_char (e : UnitEnv) (u : BatchUnit) (s : FS) :
    ∃ s', processUnit e s u = stepOfDecision (unitDecision e u) s' := by
  cases hcfg : u.config with
  | none => exact ⟨s, by simp [processUnit, unitDecision, hcfg, stepOfDecision]⟩
  | some cfg =>
    by_cases hk : truthyOpt cfg.origin_ca_key = false
    · exact ⟨s, by simp [processUnit, unitDecision, hcfg, hk, stepOfDecision]⟩
    · by_cases hh : cfg.hostnames = []
      · exact ⟨s, by simp [processUnit, unitDecision, hcfg, hk, hh, stepOfDecision]⟩
      · cases hcc : create_origin_certificate cfg.hostnames cfg.validity_days cfg.cert_type
            e.csr e.http with
        | raised =>
          exact ⟨s, by simp [processUnit, unitDecision, hcfg, hk, hh, hcc, stepOfDecision]⟩
        | retNone =>
          exact ⟨s, by simp [processUnit, unitDecision, hcfg, hk, hh, hcc, stepOfDecision]⟩
        | retSome pr =>
          obtain ⟨cert, private_key⟩ := pr
          cases hfp : get_certificate_fingerprint e.fpOut with
          | none =>
            exact ⟨s, by
              simp [processUnit, unitDecision, hcfg, hk, hh, hcc, hfp, stepOfDecision]⟩
          | some fp =>
            by_cases hfe : fp = ""
            · exact ⟨s, by
                simp [processUnit, unitDecision, hcfg, hk, hh, hcc, hfp, hfe, stepOfDecision]⟩
            · cases hsa : saveAll e.wenv e.tmp s u.domain cfg.hostnames cert.certificate
                  private_key fp cfg.cert_dir_base with
              | mk s2 b =>
                have hb : saveAllRaises e.wenv u.domain cfg.hostnames cfg.cert_dir_base = b := by
                  have hq := saveAll_snd e.wenv e.tmp s u.domain cfg.hostnames
                    cert.certificate private_key fp cfg.cert_dir_base
                  rw [hsa] at hq
                  exact hq.symm
                cases b
                · exact ⟨s2, by
                    simp [processUnit, unitDecision, hcfg, hk, hh, hcc, hfp, hfe, hsa, hb,
                      stepOfDecision]⟩
                · exact ⟨s2, by
                    simp [processUnit, unitDecision, hcfg, hk, hh, hcc, hfp, hfe, hsa, hb,
                      stepOfDecision]⟩

theorem runUnits_by_decisions (units : List (BatchUnit × UnitEnv)) (s : FS)
    (h : ∀ p ∈ units, unitDecision p.2 p.1 ≠ none) :
    (runUnits units s).outcomes = units.map decidedSuccess ∧
    (runUnits units s).caCalls = caOpportunities units ∧
    (runUnits units s).completed = true := by
  induction units generalizing s with
  | nil => exact ⟨rfl, rfl, rfl⟩
  | cons p rest ih =>
    obtain ⟨u, e⟩ := p
    obtain ⟨s', hs'⟩ := processUnit_char e u s
    have hne := h (u, e) (List.mem_cons_self _ _)
    cases hd : unitDecision e u with
    | none => exact absurd hd hne
    | some d =>
      obtain ⟨success, ca⟩ := d
      rw [hd] at hs'
      have hstep : processUnit e s u = .done success ca s' := hs'
      have ihr := ih s' (fun q hq => h q (List.mem_cons_of_mem _ hq))
      have hds : decidedSuccess (u, e) = success := by simp [decidedSuccess, hd]
      have hdc : decidedCa (u, e) = ca := by simp [decidedCa, hd]
      refine ⟨?_, ?_, ?_⟩
      · simp only [runUnits, hstep, List.map_cons, hds]
        rw [ihr.1]
      · have hco : caOpportunities ((u, e) :: rest) =
            (if decidedCa (u, e) then 1 else 0) + caOpportunities rest := by
          simp [caOpportunities]
        simp only [runUnits, hstep, hco, hdc]
        rw [ihr.2.1]
      · simp only [runUnits, hstep]
        exact ihr.2.2

theorem caOpportunities_all_true (units : List (BatchUnit × UnitEnv))
    (h : ∀ p ∈ units, decidedCa p = true) :
    caOpportunities units = units.length := by
  induction units with
  | nil => rfl
  | cons p rest ih =>
    have hr := ih (fun q hq => h q (List.mem_cons_of_mem _ hq))
    simp [caOpportunities, List.sum_cons, h p (List.mem_cons_self _ _)] at hr ⊢
    omega

/-! ### Helper lemmas about the persistence paths and write states -/

theorem fsWrite_same (m : FileMap) (p c : String) : fsWrite m p c p = some c := by
  simp [fsWrite]

theorem fsWrite_other (m : FileMap) (p c q : String) (h : q ≠ p) :
    fsWrite m p c q = m q := by
  simp [fsWrite, h]

theorem writeFile_files_ok (env : WriteEnv) (s : FS) (p c t : String)
    (h : writeOutcomeOf env p = .ok) :
    (writeFile env s p c t).fs.files = fsWrite s.files p c := by
  unfold writeOutcomeOf at h
  unfold writeFile
  cases hp : env.primary p
  · simp
  · rw [hp] at h
    by_cases hcp : env.sudoCp p
    · simp [hcp]
    · simp [hcp] at h
  · rw [hp] at h
    cases h

theorem writeFile_temps_ok (env : WriteEnv) (s : FS) (p c t : String)
    (h : writeOutcomeOf env p = .ok) :
    (writeFile env s p c t).fs.temps = s.temps := by
  unfold writeOutcomeOf at h
  unfold writeFile
  cases hp : env.primary p
  · simp
  · rw [hp] at h
    by_cases hcp : env.sudoCp p
    · simp [hcp, List.erase_cons]
    · simp [hcp] at h
  · rw [hp] at h

theorem writeFile_files_failed (env : WriteEnv) (s : FS) (p c t : String)
    (h : writeOutcomeOf env p = .failed) :
    (writeFile env s p c t).fs.files = s.files := by
  unfold writeOutcomeOf at h
  unfold writeFile
  cases hp : env.primary p
  · rw [hp] at h
    cases h
  · rw [hp] at h
    by_cases hcp : env.sudoCp p
    · simp [hcp] at h
    · simp [hcp]
  · rw [hp] at h

theorem crt_ne_key (a b : String) : a ++ ".crt" ≠ b ++ ".key" := by
  intro h
  have hd := congrArg String.data h
  rw [String.data_append, String.data_append] at hd
  have hr := congrArg List.reverse hd
  rw [List.reverse_append, List.reverse_append] at hr
  have e1 : (".crt" : String).data.reverse = ['t', 'r', 'c', '.'] := rfl
  have e2 : (".key" : String).data.reverse = ['y', 'e', 'k', '.'] := rfl
  rw [e1, e2] at hr
  have hh : some 't' = some 'y' := congrArg List.head? hr
  exact absurd hh (by decide)

theorem crt_ne_fingerprint (a b : String) : a ++ ".crt" ≠ b ++ ".fingerprint" := by
  intro h
  have hd := congrArg String.data h
  rw [String.data_append, String.data_append] at hd
  have hr := congrArg List.reverse hd
  rw [List.reverse_append, List.reverse_append] at hr
  have e1 : (".crt" : String).data.reverse = ['t', 'r', 'c', '.'] := rfl
  have e2 : (".fingerprint" : String).data.reverse =
    ['t', 'n', 'i', 'r', 'p', 'r', 'e', 'g', 'n', 'i', 'f', '.'] := rfl
  rw [e1, e2] at hr
  have hh : some 'r' = some 'n' := congrArg (fun l => l.tail.head?) hr
  exact absurd hh (by decide)

theorem key_ne_fingerprint (a b : String) : a ++ ".key" ≠ b ++ ".fingerprint" := by
  intro h
  have hd := congrArg String.data h
  rw [String.data_append, String.data_append] at hd
  have hr := congrArg List.reverse hd
  rw [List.reverse_append, List.reverse_append] at hr
  have e1 : (".key" : String).data.reverse = ['y', 'e', 'k', '.'] := rfl
  have e2 : (".fingerprint" : String).data.reverse =
    ['t', 'n', 'i', 'r', 'p', 'r', 'e', 'g', 'n', 'i', 'f', '.'] := rfl
  rw [e1, e2] at hr
  have hh : some 'y' = some 't' := congrArg List.head? hr
  exact absurd hh (by decide)

theorem artifactPath_split (base domain h ext : String) :
    artifactPath base domain h ext =
      (hostDir base domain h ++ "/" ++ (domain ++ "." ++ h)) ++ ext :=
  (String.append_assoc _ _ _).symm

theorem artifact_crt_ne_key (b1 d1 h1 b2 d2 h2 : String) :
    artifactPath b1 d1 h1 ".crt" ≠ artifactPath b2 d2 h2 ".key" := by
  rw [artifactPath_split, artifactPath_split]
  exact crt_ne_key _ _

theorem artifact_crt_ne_fingerprint (b1 d1 h1 b2 d2 h2 : String) :
    artifactPath b1 d1 h1 ".crt" ≠ artifactPath b2 d2 h2 ".fingerprint" := by
  rw [artifactPath_split, artifactPath_split]
  exact crt_ne_fingerprint _ _

theorem artifact_key_ne_fingerprint (b1 d1 h1 b2 d2 h2 : String) :
    artifactPath b1 d1 h1 ".key" ≠ artifactPath b2 d2 h2 ".fingerprint" := by
  rw [artifactPath_split, artifactPath_split]
  exact key_ne_fingerprint _ _

theorem save_ok_state (env : WriteEnv) (s : FS) (t1 t2 t3 domain hostname c k f base : String)
    (hmk : mkdirStep env (hostDir base domain hostname) = some true)
    (h1 : writeOutcomeOf env (artifactPath base domain hostname ".crt") = .ok)
    (h2 : writeOutcomeOf env (artifactPath base domain hostname ".key") = .ok)
    (h3 : writeOutcomeOf env (artifactPath base domain hostname ".fingerprint") = .ok) :
    (save_to_cert_dir env s t1 t2 t3 domain hostname c k f base).2 = .ok ∧
    (save_to_cert_dir env s t1 t2 t3 domain hostname c k f base).1.files =
      fsWrite (fsWrite (fsWrite s.files (artifactPath base domain hostname ".crt") c)
        (artifactPath base domain hostname ".key") k)
        (artifactPath base domain hostname ".fingerprint") f ∧
    (save_to_cert_dir env s t1 t2 t3 domain hostname c k f base).1.temps = s.temps := by
  unfold save_to_cert_dir
  simp only [hmk, writeFile_outcome, h1, h2, h3]
  refine ⟨trivial, ?_, ?_⟩
  · rw [writeFile_files_ok _ _ _ _ _ h3, writeFile_files_ok _ _ _ _ _ h2,
      writeFile_files_ok _ _ _ _ _ h1]
  · rw [writeFile_temps_ok _ _ _ _ _ h3, writeFile_temps_ok _ _ _ _ _ h2,
      writeFile_temps_ok _ _ _ _ _ h1]

/-- Hypothesis bundle: every write of every hostname in the list goes
through directly. -/
def allWritesOk (env : WriteEnv) (domain base : String) (hostnames : List String) : Prop :=
  ∀ h ∈ hostnames, mkdirStep env (hostDir base domain h) = some true ∧
    writeOutcomeOf env (artifactPath base domain h ".crt") = .ok ∧
    writeOutcomeOf env (artifactPath base domain h ".key") = .ok ∧
    writeOutcomeOf env (artifactPath base domain h ".fingerprint") = .ok

theorem saveAll_cons_ok (env : WriteEnv) (tmp : String) (s : FS)
    (domain h c k f base : String) (t : List String)
    (ho : (save_to_cert_dir env s tmp tmp tmp domain h c k f base).2 = .ok) :
    saveAll env tmp s domain (h :: t) c k f base =
      saveAll env tmp (save_to_cert_dir env s tmp tmp tmp domain h c k f base).1
        domain t c k f base := by
  unfold saveAll
  simp only [ho]
  cases t with
  | nil => rfl
  | cons h' t' => rfl

theorem saveAll_preserves_crt (env : WriteEnv) (tmp : String)
    (domain c k f base : String) (hs : List String) (a q : String)
    (hq : q = a ++ ".crt") :
    ∀ s : FS, allWritesOk env domain base hs → s.files q = some c →
      (saveAll env tmp s domain hs c k f base).1.files q = some c := by
  induction hs with
  | nil => exact fun s _ hv => hv
  | cons h t ih =>
    intro s hok hv
    obtain ⟨hmk, h1, h2, h3⟩ := hok h (List.mem_cons_self _ _)
    obtain ⟨ho, hfiles, _⟩ := save_ok_state env s tmp tmp tmp domain h c k f base hmk h1 h2 h3
    rw [saveAll_cons_ok env tmp s domain h c k f base t ho]
    apply ih _ (fun h' hh' => hok h' (List.mem_cons_of_mem _ hh'))
    rw [hfiles]
    subst hq
    rw [fsWrite_other _ _ _ _ (by rw [artifactPath_split]; exact crt_ne_fingerprint a _),
      fsWrite_other _ _ _ _ (by rw [artifactPath_split]; exact crt_ne_key a _)]
    by_cases hc : a ++ ".crt" = artifactPath base domain h ".crt"
    · rw [hc, fsWrite_same]
    · rw [fsWrite_other _ _ _ _ hc]
      exact hv

theorem saveAll_preserves_key (env : WriteEnv) (tmp : String)
    (domain c k f base : String) (hs : List String) (a q : String)
    (hq : q = a ++ ".key") :
    ∀ s : FS, allWritesOk env domain base hs → s.files q = some k →
      (saveAll env tmp s domain hs c k f base).1.files q = some k := by
  induction hs with
  | nil => exact fun s _ hv => hv
  | cons h t ih =>
    intro s hok hv
    obtain ⟨hmk, h1, h2, h3⟩ := hok h (List.mem_cons_self _ _)
    obtain ⟨ho, hfiles, _⟩ := save_ok_state env s tmp tmp tmp domain h c k f base hmk h1 h2 h3
    rw [saveAll_cons_ok env tmp s domain h c k f base t ho]
    apply ih _ (fun h' hh' => hok h' (List.mem_cons_of_mem _ hh'))
    rw [hfiles]
    subst hq
    rw [fsWrite_other _ _ _ _ (by rw [artifactPath_split]; exact key_ne_fingerprint a _)]
    by_cases hc : a ++ ".key" = artifactPath base domain h ".key"
    · rw [hc, fsWrite_same]
    · rw [fsWrite_other _ _ _ _ hc,
        fsWrite_other _ _ _ _ (by
          rw [artifactPath_split]
          exact fun hcontra => crt_ne_key _ a hcontra.symm)]
      exact hv

theorem saveAll_preserves_fingerprint (env : WriteEnv) (tmp : String)
    (domain c k f base : String) (hs : List String) (a q : String)
    (hq : q = a ++ ".fingerprint") :
    ∀ s : FS, allWritesOk env domain base hs → s.files q = some f →
      (saveAll env tmp s domain hs c k f base).1.files q = some f := by
  induction hs with
  | nil => exact fun s _ hv => hv
  | cons h t ih =>
    intro s hok hv
    obtain ⟨hmk, h1, h2, h3⟩ := hok h (List.mem_cons_self _ _)
    obtain ⟨ho, hfiles, _⟩ := save_ok_state env s tmp tmp tmp domain h c k f base hmk h1 h2 h3
    rw [saveAll_cons_ok env tmp s domain h c k f base t ho]
    apply ih _ (fun h' hh' => hok h' (List.mem_cons_of_mem _ hh'))
    rw [hfiles]
    subst hq
    by_cases hc : a ++ ".fingerprint" = artifactPath base domain h ".fingerprint"
    · rw [hc, fsWrite_same]
    · rw [fsWrite_other _ _ _ _ hc,
        fsWrite_other _ _ _ _ (by
          rw [artifactPath_split]
          exact fun hcontra => key_ne_fingerprint _ a hcontra.symm),
        fsWrite_other _ _ _ _ (by
          rw [artifactPath_split]
          exact fun hcontra => crt_ne_fingerprint _ a hcontra.symm)]
      exact hv

theorem save_crt_failed_state (env : WriteEnv) (s : FS)
    (t1 t2 t3 domain hostname c k f base : String)
    (hmk : mkdirStep env (hostDir base domain hostname) = some true)
    (hc : writeOutcomeOf env (artifactPath base domain hostname ".crt") = .failed) :
    (save_to_cert_dir env s t1 t2 t3 domain hostname c k f base).2 = .failed ∧
    (save_to_cert_dir env s t1 t2 t3 domain hostname c k f base).1.files = s.files := by
  unfold save_to_cert_dir
  simp only [hmk, writeFile_outcome, hc]
  exact ⟨trivial, writeFile_files_failed env s _ c t1 hc⟩

theorem save_key_failed_state (env : WriteEnv) (s : FS)
    (t1 t2 t3 domain hostname c k f base : String)
    (hmk : mkdirStep env (hostDir base domain hostname) = some true)
    (hc : writeOutcomeOf env (artifactPath base domain hostname ".crt") = .ok)
    (hk : writeOutcomeOf env (artifactPath base domain hostname ".key") = .failed) :
    (save_to_cert_dir env s t1 t2 t3 domain hostname c k f base).2 = .failed ∧
    (save_to_cert_dir env s t1 t2 t3 domain hostname c k f base).1.files =
      fsWrite s.files (artifactPath base domain hostname ".crt") c := by
  unfold save_to_cert_dir
  simp only [hmk, writeFile_outcome, hc, hk]
  refine ⟨trivial, ?_⟩
  rw [writeFile_files_failed _ _ _ k t2 hk, writeFile_files_ok _ _ _ c t1 hc]

theorem save_fp_failed_state (env : WriteEnv) (s : FS)
    (t1 t2 t3 domain hostname c k f base : String)
    (hmk : mkdirStep env (hostDir base domain hostname) = some true)
    (hc : writeOutcomeOf env (artifactPath base domain hostname ".crt") = .ok)
    (hk : writeOutcomeOf env (artifactPath base domain hostname ".key") = .ok)
    (hf : writeOutcomeOf env (artifactPath base domain hostname ".fingerprint") = .failed) :
    (save_to_cert_dir env s t1 t2 t3 domain hostname c k f base).2 = .failed ∧
    (save_to_cert_dir env s t1 t2 t3 domain hostname c k f base).1.files =
      fsWrite (fsWrite s.files (artifactPath base domain hostname ".crt") c)
        (artifactPath base domain hostname ".key") k := by
  unfold save_to_cert_dir
  simp only [hmk, writeFile_outcome, hc, hk, hf]
  refine ⟨trivial, ?_⟩
  rw [writeFile_files_failed _ _ _ f t3 hf, writeFile_files_ok _ _ _ k t2 hk,
    writeFile_files_ok _ _ _ c t1 hc]

/-! ### Claim theorems -/

/-- C5.  `_write_file`: a successful primary write never invokes the
fallback; a primary `PermissionError` triggers the fallback exactly once,
whose failure is reported as a returned `False` — distinct from a primary
non-permission failure, which propagates as an uncaught exception without
any fallback attempt. -/
theorem c5_privileged_write_policy (env : WriteEnv) (s : FS) (p c t : String) :
    (env.primary p = .ok →
      (writeFile env s p c t).outcome = .ok ∧
      (writeFile env s p c t).fallbackAttempts = 0 ∧
      (writeFile env s p c t).fs.files = fsWrite s.files p c ∧
      (writeFile env s p c t).fs.temps = s.temps) ∧
    (env.primary p = .permissionError →
      (writeFile env s p c t).fallbackAttempts = 1 ∧
      (env.sudoCp p = false → (writeFile env s p c t).outcome = .failed) ∧
      (env.sudoCp p = true → (writeFile env s p c t).outcome = .ok)) ∧
    (env.primary p = .otherError →
      (writeFile env s p c t).outcome = .raised ∧
      (writeFile env s p c t).fallbackAttempts = 0 ∧
      (writeFile env s p c t).fs = s) ∧
    WriteOutcome.failed ≠ WriteOutcome.raised := by
  refine ⟨fun h => ?_, fun h => ?_, fun h => ?_, by decide⟩
  · simp [writeFile, h]
  · by_cases hcp : env.sudoCp p <;> simp [writeFile, h, hcp]
  · simp [writeFile, h]

/-- Witness for C5: with an all-success environment the write succeeds
with no fallback attempt; with a permission failure and a failing
`sudo cp`, the fallback is attempted once and the call returns `False`. -/
theorem c5_privileged_write_policy_w :
    (writeFile envAllOk emptyFS "/etc/cert/d/h/d.h.crt" "PEM" "/tmp/t1").outcome = .ok ∧
    (writeFile envAllOk emptyFS "/etc/cert/d/h/d.h.crt" "PEM" "/tmp/t1").fallbackAttempts = 0 ∧
    (writeFile envPermCpFail emptyFS "/etc/cert/d/h/d.h.crt" "PEM" "/tmp/t1").fallbackAttempts = 1 ∧
    (writeFile envPermCpFail emptyFS "/etc/cert/d/h/d.h.crt" "PEM" "/tmp/t1").outcome = .failed ∧
    (writeFile envOtherErr emptyFS "/etc/cert/d/h/d.h.crt" "PEM" "/tmp/t1").outcome = .raised :=
  ⟨((c5_privileged_write_policy envAllOk emptyFS _ "PEM" _).1 rfl).1,
   ((c5_privileged_write_policy envAllOk emptyFS _ "PEM" _).1 rfl).2.1,
   ((c5_privileged_write_policy envPermCpFail emptyFS _ "PEM" _).2.1 rfl).1,
   ((c5_privileged_write_policy envPermCpFail emptyFS _ "PEM" _).2.1 rfl).2.1 rfl,
   ((c5_privileged_write_policy envOtherErr emptyFS _ "PEM" _).2.2.1 rfl).1⟩

/-- C3 counterexample.  When the primary write hits `PermissionError` and
the elevated copy fails, `_write_file` returns `False` on a path where
`os.unlink` never runs: the private temporary file survives, so the
temp file is not removed on every exit path. -/
theorem c3_counterexample :
    (writeFile envPermCpFail emptyFS "/etc/cert/f" "DATA" "/tmp/tmpX").outcome = .failed ∧
    (writeFile envPermCpFail emptyFS "/etc/cert/f" "DATA" "/tmp/tmpX").fs.temps = ["/tmp/tmpX"] :=
  ⟨rfl, rfl⟩

/-- C3 amended.  In the fallback branch of `_write_file`, the temporary
file is created and then removed when the elevated copy succeeds, but
when the copy fails the unlink is skipped and the temporary file is left
behind. -/
theorem c3_temp_cleanup (env : WriteEnv) (s : FS) (p c t : String)
    (hperm : env.primary p = .permissionError) :
    (env.sudoCp p = true → (writeFile env s p c t).fs.temps = s.temps) ∧
    (env.sudoCp p = false → (writeFile env s p c t).fs.temps = t :: s.temps) := by
  constructor <;> intro hcp <;> simp [writeFile, hperm, hcp, List.erase_cons]

/-- Witness for C3's amended theorem at concrete environments. -/
theorem c3_temp_cleanup_w :
    (writeFile envPermCpOk emptyFS "/etc/cert/f" "DATA" "/tmp/tmpX").fs.temps = [] ∧
    (writeFile envPermCpFail emptyFS "/etc/cert/f" "DATA" "/tmp/tmpX").fs.temps = ["/tmp/tmpX"] :=
  ⟨(c3_temp_cleanup envPermCpOk emptyFS _ "DATA" _ rfl).1 rfl,
   (c3_temp_cleanup envPermCpFail emptyFS _ "DATA" _ rfl).2 rfl⟩

/-- C4 counterexample.  A credential rejection (HTTP 403 with an auth
error list) and a plain request failure (HTTP 400) produce identical
returned results — both are `None`, with the CA's error list only
printed — so the failure kinds are not distinguishable in the returned
result and no `AuthError`/`RequestError` distinction exists. -/
theorem c4_counterexample :
    create_origin_certificate ["a.example.com"] 90 "origin-rsa" (.ok "CSR" "KEY")
        (.response 403 false ["authentication error"] exCertResult) =
      create_origin_certificate ["a.example.com"] 90 "origin-rsa" (.ok "CSR" "KEY")
        (.response 400 false ["bad request"] exCertResult) ∧
    create_origin_certificate ["a.example.com"] 90 "origin-rsa" (.ok "CSR" "KEY")
        (.response 403 false ["authentication error"] exCertResult) = .retNone :=
  ⟨rfl, rfl⟩

/-- C4 amended.  `create_origin_certificate` returns `None` for every
CA-level failure — any non-200 status (credential rejection included)
and `success:false` bodies — without attaching the CA's error list to the
result; network-level failures and CSR-generation failures propagate as
uncaught exceptions instead of producing a return value; on success the
result carries the CA payload and the locally generated private key. -/
theorem c4_ca_failure_modes (hs : List String) (v : Nat) (rt csr key : String)
    (status : Nat) (su : Bool) (errs : List String) (r : CertResult) :
    (status ≠ 200 →
      create_origin_certificate hs v rt (.ok csr key) (.response status su errs r) = .retNone) ∧
    create_origin_certificate hs v rt (.ok csr key) (.response 200 false errs r) = .retNone ∧
    create_origin_certificate hs v rt (.ok csr key) .transportError = .raised ∧
    (∀ http : HttpOutcome, create_origin_certificate hs v rt .raised http = .raised) ∧
    create_origin_certificate hs v rt (.ok csr key) (.response 200 true errs r) =
      .retSome (r, key) := by
  refine ⟨fun h => by simp [create_origin_certificate, h],
    by simp [create_origin_certificate], rfl, fun _ => rfl,
    by simp [create_origin_certificate]⟩

/-- Witness for C4's amended theorem at a concrete rejected status. -/
theorem c4_ca_failure_modes_w :
    create_origin_certificate ["a.example.com"] 90 "origin-rsa" (.ok "CSR" "KEY")
        (.response 502 true [] exCertResult) = .retNone :=
  (c4_ca_failure_modes ["a.example.com"] 90 "origin-rsa" "CSR" "KEY" 502 true [] exCertResult).1
    (by decide)

/-- C6.  For every certificate the extractor accepts (modelled by the
SHA-256 digest `digest` of its DER bytes, which openssl renders
deterministically), the returned fingerprint is exactly the colon-joined
upper-case hex rendering of the digest: it matches
`^[0-9A-F]{2}(:[0-9A-F]{2})*$`, contains only characters in `[0-9A-F:]`,
is upper-case (every character is fixed by `Char.toUpper`), and is a
deterministic function of the DER bytes (equal digests give equal
fingerprints). -/
theorem c6_fingerprint_normal_form (digest : List Nat) (hne : digest ≠ []) :
    get_certificate_fingerprint (.ok (opensslFingerprintStdout digest)) =
      some ⟨hexColonChars digest⟩ ∧
    (∀ fp : String,
      get_certificate_fingerprint (.ok (opensslFingerprintStdout digest)) = some fp →
      fingerprintPattern fp = true ∧
      fp.data.all isHexColon = true ∧
      fp.data.map Char.toUpper = fp.data) ∧
    (∀ d2 : List Nat, d2 = digest →
      get_certificate_fingerprint (.ok (opensslFingerprintStdout d2)) =
        get_certificate_fingerprint (.ok (opensslFingerprintStdout digest))) := by
  have heval : get_certificate_fingerprint (.ok (opensslFingerprintStdout digest)) =
      some ⟨hexColonChars digest⟩ := by
    show some (⟨normFingerprintChars (opensslFingerprintStdout digest).data⟩ : String) =
      some ⟨hexColonChars digest⟩
    rw [normFingerprint_openssl digest hne]
  refine ⟨heval, fun fp hfp => ?_, fun d2 h2 => by rw [h2]⟩
  have hfp' : fp = ⟨hexColonChars digest⟩ := by
    have := heval.symm.trans hfp
    exact (Option.some_injective _ this).symm
  subst hfp'
  refine ⟨fingerprintPattern_hexColon digest hne, ?_, ?_⟩
  · exact List.all_eq_true.2 fun c hc => mem_hexColonChars hc
  · exact List.map_congr_left
      (fun c hc => toUpper_eq_self_of_isHexColon (mem_hexColonChars hc)) |>.trans
      (List.map_id' _)

/-- Witness for C6 at the two-byte digest `[0xAB, 0x0D]`: the extractor
returns `AB:0D`, which matches the pattern. -/
theorem c6_fingerprint_normal_form_w :
    get_certificate_fingerprint (.ok (opensslFingerprintStdout [171, 13])) = some "AB:0D" ∧
    fingerprintPattern "AB:0D" = true := by
  have h := c6_fingerprint_normal_form [171, 13] (by decide)
  have he : get_certificate_fingerprint (.ok (opensslFingerprintStdout [171, 13])) =
      some "AB:0D" := h.1.trans (by decide)
  exact ⟨he, (h.2.1 "AB:0D" he).1⟩

/-- C7.  For a non-empty hostname list `h0 :: rest`, `generate_csr`
requests a 2048-bit RSA key (`openssl genrsa ... 2048`) and writes a CSR
config whose `CN` line names the first hostname, whose `[alt_names]`
section lists every hostname in input order as `DNS.<position>` entries
(one per hostname, nothing else after the `[alt_names]` header), and
which declares `keyUsage = keyEncipherment, dataEncipherment` and
`extendedKeyUsage = serverAuth`; `openssl req` is then invoked on that
config, so the CSR's CN/SAN/usage fields are exactly these (the openssl
tools' conforming behavior is the external interface). -/
theorem c7_csr_generation (h0 : String) (rest : List String)
    (key_path csr_path config_path : String) :
    (csrConfLines (h0 :: rest))[5]? = some ("CN = " ++ h0) ∧
    (csrConfLines (h0 :: rest)).length = 11 + (h0 :: rest).length ∧
    (∀ j hnm, (h0 :: rest)[j]? = some hnm →
      (csrConfLines (h0 :: rest))[11 + j]? =
        some ("DNS." ++ toString (j + 1) ++ " = " ++ hnm)) ∧
    "keyUsage = keyEncipherment, dataEncipherment" ∈ csrConfLines (h0 :: rest) ∧
    "extendedKeyUsage = serverAuth" ∈ csrConfLines (h0 :: rest) ∧
    "subjectAltName = @alt_names" ∈ csrConfLines (h0 :: rest) ∧
    genrsaArgs key_path = ["openssl", "genrsa", "-out", key_path, "2048"] ∧
    opensslReqArgs key_path csr_path config_path =
      ["openssl", "req", "-new", "-key", key_path, "-out", csr_path,
       "-config", config_path] := by
  have hlen : (csrHeaderLines ((h0 :: rest).headD "")).length = 11 := rfl
  refine ⟨?_, ?_, fun j hnm hj => ?_, ?_, ?_, ?_, rfl, rfl⟩
  · rw [csrConfLines, List.getElem?_append_left (by rw [hlen]; omega)]
    rfl
  · simp only [csrConfLines, List.length_append, altNameLines_length]
    rfl
  · rw [csrConfLines, List.getElem?_append_right (by rw [hlen]; omega)]
    rw [hlen, Nat.add_sub_cancel_left]
    have := altNameLines_get (h0 :: rest) 0 j hnm hj
    simpa using this
  · simp [csrConfLines, csrHeaderLines]
  · simp [csrConfLines, csrHeaderLines]
  · simp [csrConfLines, csrHeaderLines]

/-- Witness for C7 with hostnames `["a.example.com", "b.example.com"]`:
the CN line is the first hostname and the second SAN entry is `DNS.2`. -/
theorem c7_csr_generation_w :
    (csrConfLines ["a.example.com", "b.example.com"])[5]? =
      some "CN = a.example.com" ∧
    (csrConfLines ["a.example.com", "b.example.com"])[12]? =
      some "DNS.2 = b.example.com" := by
  have h := c7_csr_generation "a.example.com" ["b.example.com"] "k" "c" "conf"
  refine ⟨h.1, ?_⟩
  have h2 := h.2.2.1 1 "b.example.com" rfl
  simpa using h2

/-- C1 counterexample.  A unit whose certificate issuance succeeds but
whose fingerprint extraction fails (`CalledProcessError`, so
`get_certificate_fingerprint` returns `None`) is still counted in the
final success counter, refuting "counted successful if and only if both
certificate issuance and fingerprint extraction succeeded". -/
theorem c1_counterexample :
    (∃ s', processUnit envCaOkFpFail emptyFS goodUnit = .done true true s') ∧
    get_certificate_fingerprint envCaOkFpFail.fpOut = none :=
  ⟨⟨emptyFS, rfl⟩, rfl⟩

/-- C1 amended.  In any iteration that terminates normally, the unit is
counted successful exactly when certificate issuance returned a
certificate: fingerprint-extraction failure does not flip it to failed,
and persistence failures that return `False` (including sudo-fallback
failures) never flip a successfully-issued unit to failed — for any
write environment whose save loop does not raise, the recorded flag is
`true` whenever issuance succeeded and `false` whenever the CA call
returned `None`. -/
theorem c1_success_counter (e : UnitEnv) (u : BatchUnit) (cfg : UnitConfig) (s : FS)
    (hcfg : u.config = some cfg) (hk : truthyOpt cfg.origin_ca_key = true)
    (hh : cfg.hostnames ≠ []) :
    (∀ r, create_origin_certificate cfg.hostnames cfg.validity_days cfg.cert_type
        e.csr e.http = .retSome r →
      saveAllRaises e.wenv u.domain cfg.hostnames cfg.cert_dir_base = false →
      ∃ s', processUnit e s u = .done true true s') ∧
    (create_origin_certificate cfg.hostnames cfg.validity_days cfg.cert_type
        e.csr e.http = .retNone →
      ∃ s', processUnit e s u = .done false true s') := by
  have hknf : ¬ (truthyOpt cfg.origin_ca_key = false) := by simp [hk]
  constructor
  · intro r hcc hsar
    have hd : unitDecision e u = some (true, true) := by
      simp only [unitDecision, hcfg, if_neg hknf, if_neg hh, hcc]
      cases hfp : get_certificate_fingerprint e.fpOut with
      | none => rfl
      | some fp =>
        by_cases hfe : fp = ""
        · simp [hfe]
        · simp [hfe, hsar]
    obtain ⟨s', hs'⟩ := processUnit_char e u s
    rw [hd] at hs'
    exact ⟨s', hs'⟩
  · intro hcc
    have hd : unitDecision e u = some (false, true) := by
      simp only [unitDecision, hcfg, if_neg hknf, if_neg hh, hcc]
    obtain ⟨s', hs'⟩ := processUnit_char e u s
    rw [hd] at hs'
    exact ⟨s', hs'⟩

/-- Witness for C1's amended theorem: with every stage succeeding the
unit records success; with a CA-level rejection it records failure. -/
theorem c1_success_counter_w :
    (∃ s', processUnit envCaOkFpOk emptyFS goodUnit = .done true true s') ∧
    (∃ s', processUnit envCaReject emptyFS goodUnit = .done false true s') :=
  ⟨(c1_success_counter envCaOkFpOk goodUnit goodConfig emptyFS rfl rfl
      (by decide)).1 (exCertResult, "KEY") rfl rfl,
   (c1_success_counter envCaReject goodUnit goodConfig emptyFS rfl rfl
      (by decide)).2 rfl⟩

/-- C2 counterexample.  In a two-unit run whose first unit fails at the
CSR-generation stage (`subprocess.CalledProcessError` from `check=True`),
the exception is not returned to the orchestrator: the run aborts, no
failure is recorded for the first unit, and the second unit is never
processed — a stage failure in one unit does abort the remaining
units. -/
theorem c2_counterexample :
    (runUnits [(goodUnit, envCsrRaise), (goodUnit, envCaOkFpOk)] emptyFS).completed = false ∧
    (runUnits [(goodUnit, envCsrRaise), (goodUnit, envCaOkFpOk)] emptyFS).outcomes = [] ∧
    [(goodUnit, envCsrRaise), (goodUnit, envCaOkFpOk)].length = 2 :=
  ⟨rfl, rfl, rfl⟩

/-- C2 amended.  Failures the code handles by returning a value — CA
rejections (non-200 or `success:false`), fingerprint-extraction failures
and persistence writes that return `False` — are recorded against the
current unit and processing proceeds to the next unit: whenever no unit's
environment makes a stage raise, the run completes with one recorded
outcome per unit, each determined by that unit alone.  CSR-generation
failures, network transport failures, and non-permission write errors,
however, raise uncaught exceptions that abort all remaining units. -/
theorem c2_stage_failure_isolation (units : List (BatchUnit × UnitEnv)) (s : FS)
    (h : ∀ p ∈ units, unitDecision p.2 p.1 ≠ none) :
    (runUnits units s).completed = true ∧
    (runUnits units s).outcomes = units.map decidedSuccess ∧
    (runUnits units s).outcomes.length = units.length := by
  obtain ⟨ho, _, hc⟩ := runUnits_by_decisions units s h
  exact ⟨hc, ho, by rw [ho, List.length_map]⟩

/-- Witness for C2's amended theorem: a CA-rejected first unit is
recorded as failed and the second unit still runs and succeeds. -/
theorem c2_stage_failure_isolation_w :
    (runUnits [(goodUnit, envCaReject), (goodUnit, envCaOkFpOk)] emptyFS).completed = true ∧
    (runUnits [(goodUnit, envCaReject), (goodUnit, envCaOkFpOk)] emptyFS).outcomes =
      [false, true] := by
  have h := c2_stage_failure_isolation [(goodUnit, envCaReject), (goodUnit, envCaOkFpOk)]
    emptyFS (by decide)
  exact ⟨h.1, h.2.1.trans (by decide)⟩

/-- C9.  A unit missing its credential (or its hostname list) records a
failure without reaching the CA call, and the other units are unaffected:
with `pre ++ mal :: post` where `mal` is the malformed unit and every
other unit reaches the CA without raising, exactly
`pre.length + post.length` (= N-1) CA-call opportunities occur, `false`
is recorded at `mal`'s position, every other unit's outcome is the one
its own unit/environment determines, and replacing `mal` by any
non-raising unit leaves all other outcomes unchanged. -/
theorem c9_malformed_unit_isolation
    (pre post : List (BatchUnit × UnitEnv)) (mal : BatchUnit × UnitEnv)
    (malCfg : UnitConfig) (s : FS)
    (hmc : mal.1.config = some malCfg)
    (hmal : truthyOpt malCfg.origin_ca_key = false ∨ malCfg.hostnames = [])
    (hpre : ∀ p ∈ pre, unitDecision p.2 p.1 ≠ none ∧ decidedCa p = true)
    (hpost : ∀ p ∈ post, unitDecision p.2 p.1 ≠ none ∧ decidedCa p = true) :
    (runUnits (pre ++ mal :: post) s).caCalls = pre.length + post.length ∧
    decidedCa mal = false ∧
    (runUnits (pre ++ mal :: post) s).outcomes =
      pre.map decidedSuccess ++ false :: post.map decidedSuccess ∧
    (∀ rep : BatchUnit × UnitEnv, unitDecision rep.2 rep.1 ≠ none →
      (runUnits (pre ++ rep :: post) s).outcomes =
        pre.map decidedSuccess ++ decidedSuccess rep :: post.map decidedSuccess) := by
  have hdm : unitDecision mal.2 mal.1 = some (false, false) := by
    rcases hmal with hcase | hcase
    · simp [unitDecision, hmc, hcase]
    · by_cases hk : truthyOpt malCfg.origin_ca_key = false
      · simp [unitDecision, hmc, hk]
      · simp [unitDecision, hmc, hk, hcase]
  have hall : ∀ p ∈ pre ++ mal :: post, unitDecision p.2 p.1 ≠ none := by
    intro p hp
    rcases List.mem_append.1 hp with hp | hp
    · exact (hpre p hp).1
    · rcases List.mem_cons.1 hp with hp | hp
      · rw [hp, hdm]
        exact Option.some_ne_none _
      · exact (hpost p hp).1
  obtain ⟨ho, hca, _⟩ := runUnits_by_decisions (pre ++ mal :: post) s hall
  have hdsm : decidedSuccess mal = false := by simp [decidedSuccess, hdm]
  have hdcm : decidedCa mal = false := by simp [decidedCa, hdm]
  refine ⟨?_, hdcm, ?_, ?_⟩
  · rw [hca]
    have happ : caOpportunities (pre ++ mal :: post) =
        caOpportunities pre + caOpportunities (mal :: post) := by
      simp [caOpportunities]
    have hcons : caOpportunities (mal :: post) =
        (if decidedCa mal then 1 else 0) + caOpportunities post := by
      simp [caOpportunities]
    rw [happ, hcons, hdcm, caOpportunities_all_true pre (fun p hp => (hpre p hp).2),
      caOpportunities_all_true post (fun p hp => (hpost p hp).2)]
    simp
  · rw [ho, List.map_append, List.map_cons, hdsm]
  · intro rep hrep
    have hall' : ∀ p ∈ pre ++ rep :: post, unitDecision p.2 p.1 ≠ none := by
      intro p hp
      rcases List.mem_append.1 hp with hp | hp
      · exact (hpre p hp).1
      · rcases List.mem_cons.1 hp with hp | hp
        · rw [hp]
          exact hrep
        · exact (hpost p hp).1
    obtain ⟨ho', _, _⟩ := runUnits_by_decisions (pre ++ rep :: post) s hall'
    rw [ho', List.map_append, List.map_cons]

/-- Witness for C9: run `[good, malformed, good-but-CA-rejected]`; there
are exactly two CA-call opportunities and the outcomes are
`[true, false, false]`, with the malformed unit never reaching the CA. -/
theorem c9_malformed_unit_isolation_w :
    (runUnits [(goodUnit, envCaOkFpOk), (malUnit, envCaOkFpOk), (goodUnit, envCaReject)]
      emptyFS).caCalls = 2 ∧
    (runUnits [(goodUnit, envCaOkFpOk), (malUnit, envCaOkFpOk), (goodUnit, envCaReject)]
      emptyFS).outcomes = [true, false, false] := by
  have h := c9_malformed_unit_isolation [(goodUnit, envCaOkFpOk)] [(goodUnit, envCaReject)]
    (malUnit, envCaOkFpOk) noKeyConfig emptyFS rfl (Or.inl rfl)
    (by decide) (by decide)
  exact ⟨h.1.trans rfl, h.2.2.1.trans (by decide)⟩

/-- C8.  When every write goes through, the per-hostname save loop of
`main` (each hostname saved with the *same* certificate, key and
fingerprint values) produces for every hostname exactly the three files
`{base}/{domain}/{h}/{domain}.{h}.crt`, `.key`, `.fingerprint`
containing the certificate PEM, the private-key PEM and the normalized
fingerprint respectively, touches no other path, creates no leftover
temp file, and reports no failure; the contents are byte-identical
across hostnames because they are the same three values. -/
theorem c8_persistence_layout (env : WriteEnv) (tmp : String) (s : FS)
    (domain c k f base : String) (hostnames : List String)
    (hok : allWritesOk env domain base hostnames) :
    (saveAll env tmp s domain hostnames c k f base).2 = false ∧
    (∀ h ∈ hostnames,
      (saveAll env tmp s domain hostnames c k f base).1.files
        (artifactPath base domain h ".crt") = some c ∧
      (saveAll env tmp s domain hostnames c k f base).1.files
        (artifactPath base domain h ".key") = some k ∧
      (saveAll env tmp s domain hostnames c k f base).1.files
        (artifactPath base domain h ".fingerprint") = some f) ∧
    (∀ q, (∀ h ∈ hostnames, q ≠ artifactPath base domain h ".crt" ∧
        q ≠ artifactPath base domain h ".key" ∧
        q ≠ artifactPath base domain h ".fingerprint") →
      (saveAll env tmp s domain hostnames c k f base).1.files q = s.files q) ∧
    (saveAll env tmp s domain hostnames c k f base).1.temps = s.temps := by
  induction hostnames generalizing s with
  | nil => exact ⟨rfl, by simp, fun q _ => rfl, rfl⟩
  | cons h t ih =>
    obtain ⟨hmk, h1, h2, h3⟩ := hok h (List.mem_cons_self _ _)
    have hoktail : allWritesOk env domain base t :=
      fun h' hh' => hok h' (List.mem_cons_of_mem _ hh')
    obtain ⟨ho, hfiles, htemps⟩ :=
      save_ok_state env s tmp tmp tmp domain h c k f base hmk h1 h2 h3
    rw [saveAll_cons_ok env tmp s domain h c k f base t ho]
    obtain ⟨iho, ihmem, ihframe, ihtemps⟩ :=
      ih (save_to_cert_dir env s tmp tmp tmp domain h c k f base).1 hoktail
    refine ⟨iho, ?_, ?_, ihtemps.trans htemps⟩
    · intro h' hh'
      rcases List.mem_cons.1 hh' with hh' | hh'
      · subst hh'
        refine ⟨?_, ?_, ?_⟩
        · apply saveAll_preserves_crt env tmp domain c k f base t _ _
            (artifactPath_split base domain h' ".crt") _ hoktail
          rw [hfiles,
            fsWrite_other _ _ _ _ (artifact_crt_ne_fingerprint base domain h' base domain h'),
            fsWrite_other _ _ _ _ (artifact_crt_ne_key base domain h' base domain h'),
            fsWrite_same]
        · apply saveAll_preserves_key env tmp domain c k f base t _ _
            (artifactPath_split base domain h' ".key") _ hoktail
          rw [hfiles,
            fsWrite_other _ _ _ _ (artifact_key_ne_fingerprint base domain h' base domain h'),
            fsWrite_same]
        · apply saveAll_preserves_fingerprint env tmp domain c k f base t _ _
            (artifactPath_split base domain h' ".fingerprint") _ hoktail
          rw [hfiles, fsWrite_same]
      · exact ihmem h' hh'
    · intro q hq
      have hqh := hq h (List.mem_cons_self _ _)
      rw [ihframe q (fun h' hh' => hq h' (List.mem_cons_of_mem _ hh')), hfiles,
        fsWrite_other _ _ _ _ hqh.2.2, fsWrite_other _ _ _ _ hqh.2.1,
        fsWrite_other _ _ _ _ hqh.1]

/-- Witness for C8: saving `["a.example.com", "b.example.com"]` under
`example.com` writes both hostnames' triads with the shared contents. -/
theorem c8_persistence_layout_w :
    (saveAll envAllOk "/tmp/t" emptyFS "example.com" ["a.example.com", "b.example.com"]
      "CERTPEM" "KEYPEM" "AB:CD" "/etc/cert").2 = false ∧
    (saveAll envAllOk "/tmp/t" emptyFS "example.com" ["a.example.com", "b.example.com"]
      "CERTPEM" "KEYPEM" "AB:CD" "/etc/cert").1.files
      (artifactPath "/etc/cert" "example.com" "b.example.com" ".key") = some "KEYPEM" ∧
    (saveAll envAllOk "/tmp/t" emptyFS "example.com" ["a.example.com", "b.example.com"]
      "CERTPEM" "KEYPEM" "AB:CD" "/etc/cert").1.files
      (artifactPath "/etc/cert" "example.com" "a.example.com" ".crt") = some "CERTPEM" := by
  have h := c8_persistence_layout envAllOk "/tmp/t" emptyFS "example.com"
    "CERTPEM" "KEYPEM" "AB:CD" "/etc/cert" ["a.example.com", "b.example.com"]
    (by unfold allWritesOk; decide)
  exact ⟨h.1, (h.2.1 "b.example.com" (by simp)).2.1, (h.2.1 "a.example.com" (by simp)).1⟩

/-- C10.  `save_to_cert_dir` writes `.crt`, then `.key`, then
`.fingerprint`, and stops at the first write that returns `False`: later
artifacts stay unwritten, artifacts already written in this call remain
on disk (no rollback), and the call returns `False`. -/
theorem c10_save_short_circuit (env : WriteEnv) (s : FS)
    (t1 t2 t3 domain hostname c k f base : String)
    (hmk : mkdirStep env (hostDir base domain hostname) = some true) :
    (writeOutcomeOf env (artifactPath base domain hostname ".crt") = .failed →
      (save_to_cert_dir env s t1 t2 t3 domain hostname c k f base).2 = .failed ∧
      (save_to_cert_dir env s t1 t2 t3 domain hostname c k f base).1.files = s.files) ∧
    (writeOutcomeOf env (artifactPath base domain hostname ".crt") = .ok →
     writeOutcomeOf env (artifactPath base domain hostname ".key") = .failed →
      (save_to_cert_dir env s t1 t2 t3 domain hostname c k f base).2 = .failed ∧
      (save_to_cert_dir env s t1 t2 t3 domain hostname c k f base).1.files
        (artifactPath base domain hostname ".crt") = some c ∧
      (∀ q, q ≠ artifactPath base domain hostname ".crt" →
        (save_to_cert_dir env s t1 t2 t3 domain hostname c k f base).1.files q =
          s.files q)) ∧
    (writeOutcomeOf env (artifactPath base domain hostname ".crt") = .ok →
     writeOutcomeOf env (artifactPath base domain hostname ".key") = .ok →
     writeOutcomeOf env (artifactPath base domain hostname ".fingerprint") = .failed →
      (save_to_cert_dir env s t1 t2 t3 domain hostname c k f base).2 = .failed ∧
      (save_to_cert_dir env s t1 t2 t3 domain hostname c k f base).1.files
        (artifactPath base domain hostname ".crt") = some c ∧
      (save_to_cert_dir env s t1 t2 t3 domain hostname c k f base).1.files
        (artifactPath base domain hostname ".key") = some k ∧
      (∀ q, q ≠ artifactPath base domain hostname ".crt" →
        q ≠ artifactPath base domain hostname ".key" →
        (save_to_cert_dir env s t1 t2 t3 domain hostname c k f base).1.files q =
          s.files q)) ∧
    (writeOutcomeOf env (artifactPath base domain hostname ".crt") = .ok →
     writeOutcomeOf env (artifactPath base domain hostname ".key") = .ok →
     writeOutcomeOf env (artifactPath base domain hostname ".fingerprint") = .ok →
      (save_to_cert_dir env s t1 t2 t3 domain hostname c k f base).2 = .ok) := by
  refine ⟨fun hc => save_crt_failed_state env s t1 t2 t3 domain hostname c k f base hmk hc,
    fun hc hk => ?_, fun hc hk hf => ?_,
    fun hc hk hf => (save_ok_state env s t1 t2 t3 domain hostname c k f base hmk hc hk hf).1⟩
  · obtain ⟨ho, hfiles⟩ :=
      save_key_failed_state env s t1 t2 t3 domain hostname c k f base hmk hc hk
    refine ⟨ho, ?_, fun q hq => ?_⟩
    · rw [hfiles, fsWrite_same]
    · rw [hfiles, fsWrite_other _ _ _ _ hq]
  · obtain ⟨ho, hfiles⟩ :=
      save_fp_failed_state env s t1 t2 t3 domain hostname c k f base hmk hc hk hf
    refine ⟨ho, ?_, ?_, fun q hq1 hq2 => ?_⟩
    · rw [hfiles,
        fsWrite_other _ _ _ _ (artifact_crt_ne_key base domain hostname base domain hostname),
        fsWrite_same]
    · rw [hfiles, fsWrite_same]
    · rw [hfiles, fsWrite_other _ _ _ _ hq2, fsWrite_other _ _ _ _ hq1]

/-- Witness for C10: with only the `.key` write failing, the call
returns `False`, the already-written `.crt` survives, and the
`.fingerprint` file is never created. -/
theorem c10_save_short_circuit_w :
    (save_to_cert_dir envKeyWriteFails emptyFS "t" "t" "t" "example.com" "a.example.com"
      "CERT" "KEY" "FP" "/etc/cert").2 = .failed ∧
    (save_to_cert_dir envKeyWriteFails emptyFS "t" "t" "t" "example.com" "a.example.com"
      "CERT" "KEY" "FP" "/etc/cert").1.files
      (artifactPath "/etc/cert" "example.com" "a.example.com" ".crt") = some "CERT" ∧
    (save_to_cert_dir envKeyWriteFails emptyFS "t" "t" "t" "example.com" "a.example.com"
      "CERT" "KEY" "FP" "/etc/cert").1.files
      (artifactPath "/etc/cert" "example.com" "a.example.com" ".fingerprint") = none := by
  have h := (c10_save_short_circuit envKeyWriteFails emptyFS "t" "t" "t" "example.com"
    "a.example.com" "CERT" "KEY" "FP" "/etc/cert" rfl).2.1 (by decide) (by decide)
  exact ⟨h.1, h.2.1, (h.2.2 _
    (artifact_crt_ne_fingerprint "/etc/cert" "example.com" "a.example.com"
      "/etc/cert" "example.com" "a.example.com").symm).trans rfl⟩

end CertManager
